import Mathlib

/-!
Shallow embedding of the GOT-simulator core (`game_state.py`, `legal_moves.py`)
and proofs of the specified properties.

Python integers are modelled as `Int`. Method calls that mutate the receiver
in place are modelled as functions returning the updated value (paired with
the Python return value); methods that raise return `Except.error` paired
with the receiver's state at the moment of the raise. Python `dict`s are
modelled as association lists with unique keys, Python `set`s as
duplicate-free lists (insertion adds only absent elements, as `set.add` does).
-/

namespace GotSim

/-- `OrderType` enum from `game_state.py`. -/
inductive OrderType where
  | march
  | support
  | defend
  | raid
  | consolidate_power
deriving DecidableEq, Repr

/-- `LocationType` enum from `game_state.py`. -/
inductive LocationType where
  | land
  | sea
deriving DecidableEq, Repr

/-- `UnitType` enum from `game_state.py`. -/
inductive UnitType where
  | footman
  | knight
  | siege_engine
  | boat
deriving DecidableEq, Repr

/-- `FortificationType` enum from `game_state.py`. -/
inductive FortificationType where
  | no_fort
  | castle
  | stronghold
deriving DecidableEq, Repr

/-- The `units` dictionary of a `Location`: the Python default factory builds
a dict with exactly the four unit kinds as keys, so we model it as a record
with one integer count per kind. -/
structure UnitCounts where
  footman : Int
  knight : Int
  siege_engine : Int
  boat : Int
deriving DecidableEq, Repr

/-- `units.get(unit_type, 0)` — here every kind is always present. -/
def UnitCounts.get (u : UnitCounts) : UnitType → Int
  | UnitType.footman => u.footman
  | UnitType.knight => u.knight
  | UnitType.siege_engine => u.siege_engine
  | UnitType.boat => u.boat

/-- `units[unit_type] = v`. -/
def UnitCounts.set (u : UnitCounts) : UnitType → Int → UnitCounts
  | UnitType.footman, v => { u with footman := v }
  | UnitType.knight, v => { u with knight := v }
  | UnitType.siege_engine, v => { u with siege_engine := v }
  | UnitType.boat, v => { u with boat := v }

/-- The all-zero unit dictionary (the dataclass default). -/
def UnitCounts.zero : UnitCounts := ⟨0, 0, 0, 0⟩

/-- `Location` dataclass from `game_state.py`. The display-only coordinates
`x`, `y` carry no invariant and are omitted. -/
structure Location where
  name : String
  location_type : LocationType
  owner : Option String
  units : UnitCounts
  adjacent_locations : List String
  supply : Int
  max_supply : Int
  crowns : Int
  fortification : FortificationType
deriving DecidableEq, Repr

namespace Location

/-- `Location.get_total_units`: `sum(self.units.values())`. -/
def get_total_units (l : Location) : Int :=
  l.units.footman + l.units.knight + l.units.siege_engine + l.units.boat

/-- `Location.has_units`: `self.get_total_units() > 0`. -/
def has_units (l : Location) : Bool :=
  l.get_total_units > 0

/-- `Location.add_units`. The owner check runs first; on an ownership
conflict the method raises before any mutation, so the paired state is the
unchanged receiver. On success the Python method returns `True`. -/
def add_units (l : Location) (unit_type : UnitType) (count : Int)
    (owner : Option String) : Except String Bool × Location :=
  match owner with
  | none =>
      (Except.ok true,
        { l with units := l.units.set unit_type (l.units.get unit_type + count) })
  | some o =>
      match l.owner with
      | none =>
          let l1 := { l with owner := some o }
          (Except.ok true,
            { l1 with units := l1.units.set unit_type (l1.units.get unit_type + count) })
      | some cur =>
          if cur ≠ o then
            (Except.error "Cannot add units: already controlled by another owner", l)
          else
            (Except.ok true,
              { l with units := l.units.set unit_type (l.units.get unit_type + count) })

/-- `Location.remove_units`: succeeds only when the current count suffices. -/
def remove_units (l : Location) (unit_type : UnitType) (count : Int) :
    Bool × Location :=
  let current := l.units.get unit_type
  if current ≥ count then
    (true, { l with units := l.units.set unit_type (current - count) })
  else
    (false, l)

/-- `Location.set_owner`: raises while units remain, otherwise replaces the
owner unconditionally. -/
def set_owner (l : Location) (new_owner : String) : Except String Bool × Location :=
  if l.has_units then
    (Except.error "Cannot change owner: still has units", l)
  else
    (Except.ok true, { l with owner := some new_owner })

/-- `Location.add_supply`: clamps at `max_supply`, reporting whether the full
amount was applied. -/
def add_supply (l : Location) (amount : Int) : Bool × Location :=
  if l.supply + amount > l.max_supply then
    (false, { l with supply := l.max_supply })
  else
    (true, { l with supply := l.supply + amount })

/-- `Location.remove_supply`: succeeds only when enough supply is present. -/
def remove_supply (l : Location) (amount : Int) : Bool × Location :=
  if l.supply ≥ amount then
    (true, { l with supply := l.supply - amount })
  else
    (false, l)

/-- `Location.add_crowns`: unbounded, always returns `True`. -/
def add_crowns (l : Location) (amount : Int) : Bool × Location :=
  (true, { l with crowns := l.crowns + amount })

/-- `Location.remove_crowns`: succeeds only when enough crowns are present. -/
def remove_crowns (l : Location) (amount : Int) : Bool × Location :=
  if l.crowns ≥ amount then
    (true, { l with crowns := l.crowns - amount })
  else
    (false, l)

/-- The data-model constraint on stored quantities: unit counts, supply and
crowns are non-negative (spec section 3: "mapping from unit-kind to
non-negative count", `supply` in `0..maxSupply`, `crowns ≥ 0`). -/
def nonneg (l : Location) : Prop :=
  0 ≤ l.units.footman ∧ 0 ≤ l.units.knight ∧ 0 ≤ l.units.siege_engine ∧
    0 ≤ l.units.boat ∧ 0 ≤ l.supply ∧ 0 ≤ l.crowns

instance (l : Location) : Decidable l.nonneg := by
  unfold Location.nonneg
  infer_instance

end Location

/-- `Order` dataclass from `game_state.py`. Python dataclass equality is
structural, so orders compare by type, origin, target and issuer. -/
structure Order where
  order_type : OrderType
  location : Location
  target_location : Option Location
  bot_id : Option String
deriving DecidableEq, Repr

/-- `PlayerStats` dataclass from `game_state.py`. -/
structure PlayerStats where
  bot_id : String
  territories : Int
  power : Int
  total_units : Int
  units_killed : Int
  orders_executed : Int
deriving DecidableEq, Repr

/-- `PlayerStats.get_score`: `territories * 10 + power`. -/
def PlayerStats.get_score (s : PlayerStats) : Int :=
  s.territories * 10 + s.power

/-- One entry of `turn_history` (shape produced by `record_turn`). -/
structure TurnRecord where
  turn : Int
  snapshot : List (String × Int × Int × Int × Int)
deriving DecidableEq, Repr

/-- Lookup in a Python dict modelled as an association list
(`d[k]` / `k in d` / `d.get(k)`). -/
def alookup {α : Type} : List (String × α) → String → Option α
  | [], _ => none
  | (k, v) :: rest, name => if k = name then some v else alookup rest name

/-- Update the value stored at a key of a Python dict modelled as an
association list (`d[k].f(...)`, mutation through the stored reference). -/
def aupdate {α : Type} (d : List (String × α)) (name : String) (f : α → α) :
    List (String × α) :=
  d.map (fun p => if p.1 = name then (p.1, f p.2) else p)

/-- `set.add` on a Python set modelled as a duplicate-free list: inserts only
when absent, so membership-idempotent like the original. -/
def adjInsert (s : List String) (x : String) : List String :=
  if x ∈ s then s else s ++ [x]

/-- `GameState` dataclass from `game_state.py`. -/
structure GameState where
  locations : List (String × Location)
  bot_orders : List (String × List Order)
  player_stats : List (String × PlayerStats)
  turn : Int
  turn_order : List String
  current_turn_index : Nat
  active_bots : List String
  turn_history : List TurnRecord
deriving DecidableEq, Repr

namespace GameState

/-- The empty `GameState()` (all dataclass defaults). -/
def empty : GameState :=
  { locations := [], bot_orders := [], player_stats := [], turn := 0,
    turn_order := [], current_turn_index := 0, active_bots := [],
    turn_history := [] }

/-- `GameState.add_location`: `self.locations[location.name] = location`. -/
def add_location (gs : GameState) (location : Location) : GameState :=
  if (alookup gs.locations location.name).isSome then
    { gs with locations := aupdate gs.locations location.name (fun _ => location) }
  else
    { gs with locations := gs.locations ++ [(location.name, location)] }

/-- `GameState.connect_locations`: adds each name to the other's adjacency
set when both names are registered, otherwise does nothing. -/
def connect_locations (gs : GameState) (loc1_name loc2_name : String) : GameState :=
  if (alookup gs.locations loc1_name).isSome ∧ (alookup gs.locations loc2_name).isSome then
    { gs with locations :=
        (aupdate
          (aupdate gs.locations loc1_name
            (fun l => { l with adjacent_locations := adjInsert l.adjacent_locations loc2_name }))
          loc2_name
          (fun l => { l with adjacent_locations := adjInsert l.adjacent_locations loc1_name })) }
  else gs

/-- `GameState.get_adjacent_locations`: the comprehension
`[self.locations[name] for name in location.adjacent_locations if name in self.locations]`. -/
def get_adjacent_locations (gs : GameState) (location : Location) : List Location :=
  location.adjacent_locations.filterMap (fun name => alookup gs.locations name)

/-- `GameState.get_bot_locations`: owned locations, in dict value order. -/
def get_bot_locations (gs : GameState) (bot_id : String) : List Location :=
  (gs.locations.map Prod.snd).filter (fun loc => loc.owner = some bot_id)

/-- `GameState.set_turn_order`. -/
def set_turn_order (gs : GameState) (bot_order : List String) : GameState :=
  { gs with turn_order := bot_order, current_turn_index := 0 }

/-- `GameState.get_current_player`. The Python body indexes
`turn_order[current_turn_index]` after an emptiness guard; the indexing is
modelled as `List.get?`, `none` standing for an out-of-range access. -/
def get_current_player (gs : GameState) : Option String :=
  if gs.turn_order.isEmpty then none
  else gs.turn_order.get? gs.current_turn_index

/-- `GameState.next_turn`. -/
def next_turn (gs : GameState) : GameState :=
  if gs.turn_order.isEmpty then gs
  else
    if gs.current_turn_index + 1 ≥ gs.turn_order.length then
      { gs with current_turn_index := 0, turn := gs.turn + 1 }
    else
      { gs with current_turn_index := gs.current_turn_index + 1 }

/-- `GameState.reset_turn_order`. -/
def reset_turn_order (gs : GameState) : GameState :=
  { gs with current_turn_index := 0 }

/-- Structural facts Python guarantees for every `GameState`: dict keys are
unique, each location is stored under its own name (`add_location` indexes by
`location.name`), and each adjacency set holds no duplicates. -/
def wf (gs : GameState) : Prop :=
  (gs.locations.map Prod.fst).Nodup ∧
    (∀ p ∈ gs.locations, p.2.name = p.1) ∧
    (∀ p ∈ gs.locations, p.2.adjacent_locations.Nodup)

instance (gs : GameState) : Decidable gs.wf := by
  unfold GameState.wf
  infer_instance

end GameState

namespace LegalMoveGenerator

/-- `LegalMoveGenerator._get_orders_for_location`: one DEFEND, then per
adjacent location a MARCH when the neighbor's owner differs from the bot and
a SUPPORT when it matches. -/
def get_orders_for_location (gs : GameState) (bot_id : String)
    (location : Location) : List Order :=
  Order.mk OrderType.defend location none (some bot_id) ::
    (gs.get_adjacent_locations location).flatMap (fun adj_location =>
      (if adj_location.owner ≠ some bot_id then
        [Order.mk OrderType.march location (some adj_location) (some bot_id)]
      else []) ++
      (if adj_location.owner = some bot_id then
        [Order.mk OrderType.support location (some adj_location) (some bot_id)]
      else []))

/-- `LegalMoveGenerator.get_legal_orders`: per controlled location with
units, the list of candidate orders, keyed by location name; empty entries
are skipped (the Python `if location_orders:` truthiness test). -/
def get_legal_orders (gs : GameState) (bot_id : String) :
    List (String × List Order) :=
  (gs.get_bot_locations bot_id).filterMap (fun location =>
    if location.has_units then
      let location_orders := get_orders_for_location gs bot_id location
      if location_orders.isEmpty then none
      else some (location.name, location_orders)
    else none)

/-- `LegalMoveGenerator.is_legal_order`: membership of the order in its
origin location's candidate list, `False` when the origin has no entry. -/
def is_legal_order (gs : GameState) (bot_id : String) (order : Order) : Bool :=
  match alookup (get_legal_orders gs bot_id) order.location.name with
  | none => false
  | some location_orders => location_orders.any (fun o => o = order)

end LegalMoveGenerator

/-- One public mutation call on a `Location` (the operations named by the
spec's non-negativity invariant). -/
inductive LocOp where
  | addUnits (unit_type : UnitType) (count : Int) (owner : Option String)
  | removeUnits (unit_type : UnitType) (count : Int)
  | setOwner (new_owner : String)
  | addSupply (amount : Int)
  | removeSupply (amount : Int)
  | addCrowns (amount : Int)
  | removeCrowns (amount : Int)
deriving DecidableEq, Repr

/-- The argument domain the spec gives these operations: counts and amounts
are non-negative quantities (section 4.1, "count must be ≥0"; all stored
quantities are non-negative counts). -/
def LocOp.valid : LocOp → Prop
  | LocOp.addUnits _ count _ => 0 ≤ count
  | LocOp.removeUnits _ count => 0 ≤ count
  | LocOp.setOwner _ => True
  | LocOp.addSupply amount => 0 ≤ amount
  | LocOp.removeSupply amount => 0 ≤ amount
  | LocOp.addCrowns amount => 0 ≤ amount
  | LocOp.removeCrowns amount => 0 ≤ amount

instance (op : LocOp) : Decidable op.valid := by
  cases op <;> { unfold LocOp.valid ; infer_instance }

/-- The location state after one operation: failing calls (a raised error or
a `False` return) leave the state as the implementation left it — unchanged,
since every failure path returns before mutating. -/
def LocOp.apply (l : Location) : LocOp → Location
  | LocOp.addUnits k c o => (l.add_units k c o).2
  | LocOp.removeUnits k c => (l.remove_units k c).2
  | LocOp.setOwner o => (l.set_owner o).2
  | LocOp.addSupply a => (l.add_supply a).2
  | LocOp.removeSupply a => (l.remove_supply a).2
  | LocOp.addCrowns a => (l.add_crowns a).2
  | LocOp.removeCrowns a => (l.remove_crowns a).2

/-- Run a sequence of mutation calls left to right. -/
def applyOps (l : Location) : List LocOp → Location
  | [] => l
  | op :: rest => applyOps (op.apply l) rest

/-- Restatement of the spec's per-neighbor rule (section 4.2), to be compared
with `LegalMoveGenerator.get_orders_for_location`: a SUPPORT to a friendly
neighbor, a MARCH to any other (enemy or unowned) neighbor. -/
def specOrderForNeighbor (bot_id : String) (location adj : Location) : Order :=
  if adj.owner = some bot_id then
    Order.mk OrderType.support location (some adj) (some bot_id)
  else
    Order.mk OrderType.march location (some adj) (some bot_id)

/-- States reachable from the empty `GameState` through the turn-sequencing
operations. -/
inductive Reachable : GameState → Prop where
  | empty : Reachable GameState.empty
  | set_turn_order (gs : GameState) (bot_order : List String) :
      Reachable gs → Reachable (gs.set_turn_order bot_order)
  | next_turn (gs : GameState) : Reachable gs → Reachable gs.next_turn
  | reset_turn_order (gs : GameState) : Reachable gs → Reachable gs.reset_turn_order

section WitnessStates

/-- A concrete location with units, for witnesses. -/
def locW : Location :=
  { name := "A", location_type := LocationType.land, owner := some "Stark",
    units := ⟨2, 0, 0, 0⟩, adjacent_locations := ["B", "C"], supply := 0,
    max_supply := 2, crowns := 1, fortification := FortificationType.no_fort }

/-- A concrete location without units, for witnesses. -/
def locW0 : Location :=
  { name := "B", location_type := LocationType.land, owner := some "Stark",
    units := UnitCounts.zero, adjacent_locations := ["A"], supply := 1,
    max_supply := 1, crowns := 0, fortification := FortificationType.castle }

/-- A concrete enemy-owned location, for witnesses. -/
def locW2 : Location :=
  { name := "C", location_type := LocationType.land, owner := some "Lannister",
    units := ⟨0, 1, 0, 0⟩, adjacent_locations := ["A"], supply := 0,
    max_supply := 1, crowns := 0, fortification := FortificationType.stronghold }

/-- A concrete three-location game state, for witnesses. -/
def gsW : GameState :=
  { locations := [("A", locW), ("B", locW0), ("C", locW2)],
    bot_orders := [], player_stats := [], turn := 0,
    turn_order := ["Stark", "Lannister"], current_turn_index := 0,
    active_bots := ["Stark", "Lannister"], turn_history := [] }

/-- `gsW` with a different turn counter but the same map, for the
read-only-generation witness. -/
def gsW' : GameState :=
  { gsW with
      turn := 7
      current_turn_index := 1
      turn_history := [TurnRecord.mk 0 []] }

/-- A concrete state with a three-bot rotation, for the turn-rotation
witness. -/
def gsT : GameState :=
  { GameState.empty with turn_order := ["A", "B", "C"], turn := 4 }

end WitnessStates

/-! Helper lemmas about the unit dictionary and totals. -/

theorem UnitCounts.get_set (u : UnitCounts) (k k2 : UnitType) (v : Int) :
    (u.set k v).get k2 = if k2 = k then v else u.get k2 := by
  cases k <;> cases k2 <;> simp [UnitCounts.set, UnitCounts.get]

theorem Location.total_units_nonneg (l : Location) (h : l.nonneg) :
    0 ≤ l.get_total_units := by
  obtain ⟨h1, h2, h3, h4, _, _⟩ := h
  unfold Location.get_total_units
  omega

/-- Claim C3: `set_owner` succeeds and replaces the owner, with no check
against the prior owner, exactly when the location's total unit count is
zero; with units present it fails and leaves the location unchanged. The
location satisfies the data model's non-negative-count constraint. -/
theorem set_owner_spec (l : Location) (o : String) (h : l.nonneg) :
    (l.get_total_units = 0 →
       l.set_owner o = (Except.ok true, { l with owner := some o })) ∧
    (l.get_total_units ≠ 0 →
       ∃ msg, l.set_owner o = (Except.error msg, l)) := by
  constructor
  · intro h0
    simp [Location.set_owner, Location.has_units, h0]
  · intro h0
    have hpos : 0 < l.get_total_units :=
      lt_of_le_of_ne (l.total_units_nonneg h) (Ne.symm h0)
    refine ⟨"Cannot change owner: still has units", ?_⟩
    simp [Location.set_owner, Location.has_units, hpos]

/-- Witness for C3 at a concrete location with units and one without. -/
theorem set_owner_spec_witness :
    (locW.nonneg ∧
      ((locW.get_total_units = 0 →
         locW.set_owner "Greyjoy" = (Except.ok true, { locW with owner := some "Greyjoy" })) ∧
       (locW.get_total_units ≠ 0 →
         ∃ msg, locW.set_owner "Greyjoy" = (Except.error msg, locW)))) ∧
    (locW0.nonneg ∧
      ((locW0.get_total_units = 0 →
         locW0.set_owner "Greyjoy" = (Except.ok true, { locW0 with owner := some "Greyjoy" })) ∧
       (locW0.get_total_units ≠ 0 →
         ∃ msg, locW0.set_owner "Greyjoy" = (Except.error msg, locW0)))) :=
  ⟨⟨by decide, set_owner_spec locW "Greyjoy" (by decide)⟩,
   ⟨by decide, set_owner_spec locW0 "Greyjoy" (by decide)⟩⟩

/-- Claim C4: `add_units` with an explicit owner assigns it when the
location has none; a conflicting owner fails with an error and leaves owner
and every unit count unchanged; every non-failing call increments exactly
the given kind's count by `count`. -/
theorem add_units_spec (l : Location) (k : UnitType) (count : Int) (o : String)
    (hcount : 0 ≤ count) :
    (l.owner = none →
       l.add_units k count (some o) =
         (Except.ok true,
           { l with
               owner := some o
               units := l.units.set k (l.units.get k + count) })) ∧
    (∀ cur, l.owner = some cur → cur ≠ o →
       ∃ msg, l.add_units k count (some o) = (Except.error msg, l)) ∧
    (∀ ow res l', l.add_units k count ow = (Except.ok res, l') →
       l'.units.get k = l.units.get k + count ∧
       (∀ k2, k2 ≠ k → l'.units.get k2 = l.units.get k2)) := by
  refine ⟨?_, ?_, ?_⟩
  · intro h0
    simp [Location.add_units, h0]
  · intro cur hcur hne
    refine ⟨"Cannot add units: already controlled by another owner", ?_⟩
    simp [Location.add_units, hcur, hne]
  · intro ow res l' heq
    have hsame : l'.units = l.units.set k (l.units.get k + count) := by
      cases ow with
      | none =>
          simp [Location.add_units] at heq
          rw [← heq.2]
      | some o' =>
          cases h0 : l.owner with
          | none =>
              simp [Location.add_units, h0] at heq
              rw [← heq.2]
          | some cur =>
              by_cases hc : cur = o'
              · simp [Location.add_units, h0, hc] at heq
                rw [← heq.2]
              · simp [Location.add_units, h0, hc] at heq
    constructor
    · rw [hsame, UnitCounts.get_set]
      simp
    · intro k2 hk2
      rw [hsame, UnitCounts.get_set]
      simp [hk2]

/-- Witness for C4 at concrete locations: unowned assignment, conflict, and
a successful increment. -/
theorem add_units_spec_witness :
    ((0 : Int) ≤ 3 ∧
      (∀ cur, locW.owner = some cur → cur ≠ "Greyjoy" →
        ∃ msg, locW.add_units UnitType.knight 3 (some "Greyjoy") = (Except.error msg, locW))) ∧
    ((0 : Int) ≤ 2 ∧
      (∀ ow res l', locW.add_units UnitType.footman 2 ow = (Except.ok res, l') →
        l'.units.get UnitType.footman = locW.units.get UnitType.footman + 2 ∧
        (∀ k2, k2 ≠ UnitType.footman → l'.units.get k2 = locW.units.get k2))) :=
  ⟨⟨by decide, (add_units_spec locW UnitType.knight 3 "Greyjoy" (by decide)).2.1⟩,
   ⟨by decide, (add_units_spec locW UnitType.footman 2 "Stark" (by decide)).2.2⟩⟩

/-- Claim C5: each removal operation succeeds and decrements by exactly the
requested amount precisely when enough is present, and otherwise returns
`false` leaving the location unchanged. -/
theorem remove_ops_spec (l : Location) (k : UnitType) (amount : Int)
    (h : 0 ≤ amount) :
    (amount ≤ l.units.get k →
       l.remove_units k amount =
         (true, { l with units := l.units.set k (l.units.get k - amount) })) ∧
    (l.units.get k < amount → l.remove_units k amount = (false, l)) ∧
    (amount ≤ l.supply →
       l.remove_supply amount = (true, { l with supply := l.supply - amount })) ∧
    (l.supply < amount → l.remove_supply amount = (false, l)) ∧
    (amount ≤ l.crowns →
       l.remove_crowns amount = (true, { l with crowns := l.crowns - amount })) ∧
    (l.crowns < amount → l.remove_crowns amount = (false, l)) := by
  refine ⟨?_, ?_, ?_, ?_, ?_, ?_⟩ <;> intro h0
  · simp [Location.remove_units, h0]
  · simp [Location.remove_units, not_le.mpr h0]
  · simp [Location.remove_supply, h0]
  · simp [Location.remove_supply, not_le.mpr h0]
  · simp [Location.remove_crowns, h0]
  · simp [Location.remove_crowns, not_le.mpr h0]

/-- Witness for C5 at a concrete location, hitting both outcomes. -/
theorem remove_ops_spec_witness :
    (0 : Int) ≤ 1 ∧
      ((1 ≤ locW.units.get UnitType.footman →
         locW.remove_units UnitType.footman 1 =
           (true, { locW with units := (locW.units.set UnitType.footman (locW.units.get UnitType.footman - 1)) })) ∧
       (locW.units.get UnitType.footman < 1 →
         locW.remove_units UnitType.footman 1 = (false, locW)) ∧
       (1 ≤ locW.supply →
         locW.remove_supply 1 = (true, { locW with supply := locW.supply - 1 })) ∧
       (locW.supply < 1 → locW.remove_supply 1 = (false, locW)) ∧
       (1 ≤ locW.crowns →
         locW.remove_crowns 1 = (true, { locW with crowns := locW.crowns - 1 })) ∧
       (locW.crowns < 1 → locW.remove_crowns 1 = (false, locW))) :=
  ⟨by decide, remove_ops_spec locW UnitType.footman 1 (by decide)⟩

/-- Claim C6: starting at or below the cap, `add_supply` never leaves supply
above `max_supply`; it clamps exactly to the cap returning `false` on
overflow, applies the full amount returning `true` otherwise, and is
idempotent once the cap is reached. -/
theorem add_supply_spec (l : Location) (amount : Int)
    (hs : l.supply ≤ l.max_supply) (ha : 0 ≤ amount) :
    (l.add_supply amount).2.supply ≤ l.max_supply ∧
    (l.max_supply < l.supply + amount →
       l.add_supply amount = (false, { l with supply := l.max_supply })) ∧
    (l.supply + amount ≤ l.max_supply →
       l.add_supply amount = (true, { l with supply := l.supply + amount })) ∧
    (l.supply = l.max_supply → (l.add_supply amount).2 = l) := by
  refine ⟨?_, ?_, ?_, ?_⟩
  · unfold Location.add_supply
    split
    · simp
    · rename_i hcond
      simp only []
      simp at hcond ⊢
      omega
  · intro h0
    simp [Location.add_supply, h0]
  · intro h0
    simp [Location.add_supply, not_lt.mpr h0]
  · intro h0
    unfold Location.add_supply
    split
    · show ({ l with supply := l.max_supply } : Location) = l
      obtain ⟨nm, lt, ow, un, adj, sp, ms, cr, ft⟩ := l
      simp at h0
      simp [h0]
    · rename_i hcond
      have hz : amount = 0 := by omega
      show ({ l with supply := l.supply + amount } : Location) = l
      rw [hz, add_zero]

/-- Witness for C6 at a concrete location, including the clamped overflow
case and idempotence at the cap. -/
theorem add_supply_spec_witness :
    (locW.supply ≤ locW.max_supply ∧ (0 : Int) ≤ 5 ∧
      ((locW.add_supply 5).2.supply ≤ locW.max_supply ∧
       (locW.max_supply < locW.supply + 5 →
          locW.add_supply 5 = (false, { locW with supply := locW.max_supply })) ∧
       (locW.supply + 5 ≤ locW.max_supply →
          locW.add_supply 5 = (true, { locW with supply := locW.supply + 5 })) ∧
       (locW.supply = locW.max_supply → (locW.add_supply 5).2 = locW))) ∧
    (locW0.supply ≤ locW0.max_supply ∧ (0 : Int) ≤ 2 ∧
      (locW0.supply = locW0.max_supply → (locW0.add_supply 2).2 = locW0)) :=
  ⟨⟨by decide, by decide, add_supply_spec locW 5 (by decide) (by decide)⟩,
   ⟨by decide, by decide, (add_supply_spec locW0 2 (by decide) (by decide)).2.2.2⟩⟩

theorem Location.nonneg_def (l : Location) :
    l.nonneg ↔ ((∀ k, 0 ≤ l.units.get k) ∧ 0 ≤ l.supply ∧ 0 ≤ l.crowns) := by
  unfold Location.nonneg
  constructor
  · rintro ⟨a, b, c, d, e, f⟩
    exact ⟨fun k => by cases k <;> simpa [UnitCounts.get], e, f⟩
  · rintro ⟨a, b, c⟩
    exact ⟨a UnitType.footman, a UnitType.knight, a UnitType.siege_engine,
      a UnitType.boat, b, c⟩

theorem UnitCounts.set_nonneg (u : UnitCounts) (k : UnitType) (v : Int)
    (h : ∀ k2, 0 ≤ u.get k2) (hval : 0 ≤ v) : ∀ k2, 0 ≤ (u.set k v).get k2 := by
  intro k2
  rw [UnitCounts.get_set]
  split
  · exact hval
  · exact h k2

/-- No mutation operation ever touches `max_supply`. -/
theorem LocOp.apply_max (l : Location) (op : LocOp) :
    (op.apply l).max_supply = l.max_supply := by
  cases op with
  | addUnits k c o =>
      cases o with
      | none => rfl
      | some o' =>
          cases ho : l.owner with
          | none => simp [LocOp.apply, Location.add_units, ho]
          | some cur =>
              by_cases hc : cur = o' <;>
                simp [LocOp.apply, Location.add_units, ho, hc]
  | removeUnits k c =>
      simp only [LocOp.apply, Location.remove_units]
      split <;> rfl
  | setOwner o =>
      simp only [LocOp.apply, Location.set_owner]
      split <;> rfl
  | addSupply a =>
      simp only [LocOp.apply, Location.add_supply]
      split <;> rfl
  | removeSupply a =>
      simp only [LocOp.apply, Location.remove_supply]
      split <;> rfl
  | addCrowns a => rfl
  | removeCrowns a =>
      simp only [LocOp.apply, Location.remove_crowns]
      split <;> rfl

/-- One mutation step preserves non-negativity of all stored quantities. -/
theorem LocOp.apply_nonneg (l : Location) (op : LocOp) (h : l.nonneg)
    (hmax : 1 ≤ l.max_supply) (hv : op.valid) : (op.apply l).nonneg := by
  rw [Location.nonneg_def] at h
  obtain ⟨hu, hs, hc⟩ := h
  rw [Location.nonneg_def]
  cases op with
  | addUnits k c o =>
      have hcn : 0 ≤ c := hv
      cases o with
      | none =>
          exact ⟨UnitCounts.set_nonneg l.units k _ hu (add_nonneg (hu k) hcn), hs, hc⟩
      | some o' =>
          cases ho : l.owner with
          | none =>
              simp only [LocOp.apply, Location.add_units, ho]
              exact ⟨UnitCounts.set_nonneg l.units k _ hu (add_nonneg (hu k) hcn), hs, hc⟩
          | some cur =>
              by_cases hco : cur = o'
              · simp only [LocOp.apply, Location.add_units, ho, hco]
                simp
                exact ⟨UnitCounts.set_nonneg l.units k _ hu (add_nonneg (hu k) hcn), hs, hc⟩
              · simp only [LocOp.apply, Location.add_units, ho]
                simp [hco]
                exact ⟨hu, hs, hc⟩
  | removeUnits k c =>
      simp only [LocOp.apply, Location.remove_units]
      split
      · rename_i hge
        refine ⟨?_, hs, hc⟩
        refine UnitCounts.set_nonneg l.units k _ hu ?_
        omega
      · exact ⟨hu, hs, hc⟩
  | setOwner o =>
      simp only [LocOp.apply, Location.set_owner]
      split
      · exact ⟨hu, hs, hc⟩
      · exact ⟨hu, hs, hc⟩
  | addSupply a =>
      have ha : 0 ≤ a := hv
      simp only [LocOp.apply, Location.add_supply]
      split
      · refine ⟨hu, ?_, hc⟩
        show 0 ≤ l.max_supply
        omega
      · refine ⟨hu, ?_, hc⟩
        show 0 ≤ l.supply + a
        omega
  | removeSupply a =>
      simp only [LocOp.apply, Location.remove_supply]
      split
      · rename_i hge
        refine ⟨hu, ?_, hc⟩
        show 0 ≤ l.supply - a
        omega
      · exact ⟨hu, hs, hc⟩
  | addCrowns a =>
      have ha : 0 ≤ a := hv
      refine ⟨hu, hs, ?_⟩
      show 0 ≤ l.crowns + a
      omega
  | removeCrowns a =>
      simp only [LocOp.apply, Location.remove_crowns]
      split
      · rename_i hge
        refine ⟨hu, hs, ?_⟩
        show 0 ≤ l.crowns - a
        omega
      · exact ⟨hu, hs, hc⟩

/-- Claim C8: starting from a location with non-negative unit counts, supply
and crowns (and a cap respecting the data model's `maxSupply ≥ 1`), every
sequence of the public mutation operations, called with the non-negative
amounts they accept, keeps every stored quantity non-negative. -/
theorem location_nonneg_invariant (l : Location) (ops : List LocOp)
    (h : l.nonneg) (hmax : 1 ≤ l.max_supply)
    (hops : ∀ op ∈ ops, op.valid) :
    (applyOps l ops).nonneg := by
  induction ops generalizing l with
  | nil => exact h
  | cons op rest ih =>
      have hv : op.valid := hops op (by simp)
      have hmax' : 1 ≤ (op.apply l).max_supply := by
        rw [LocOp.apply_max]
        exact hmax
      exact ih (op.apply l) (LocOp.apply_nonneg l op h hmax hv) hmax'
        (fun o ho => hops o (by simp [ho]))

/-- Witness for C8: a concrete seven-operation sequence on a concrete
location. -/
theorem location_nonneg_invariant_witness :
    locW.nonneg ∧ 1 ≤ locW.max_supply ∧
      (∀ op ∈ [LocOp.addUnits UnitType.knight 2 (some "Stark"),
               LocOp.removeUnits UnitType.footman 1,
               LocOp.addSupply 5,
               LocOp.removeSupply 1,
               LocOp.addCrowns 3,
               LocOp.removeCrowns 4,
               LocOp.setOwner "Greyjoy"], op.valid) ∧
      (applyOps locW
        [LocOp.addUnits UnitType.knight 2 (some "Stark"),
         LocOp.removeUnits UnitType.footman 1,
         LocOp.addSupply 5,
         LocOp.removeSupply 1,
         LocOp.addCrowns 3,
         LocOp.removeCrowns 4,
         LocOp.setOwner "Greyjoy"]).nonneg :=
  ⟨by decide, by decide, by decide,
    location_nonneg_invariant locW _ (by decide) (by decide) (by decide)⟩

/-! Helper lemmas about the dict and set models. -/

theorem aupdate_cons {α : Type} (k : String) (v : α) (rest : List (String × α))
    (n : String) (f : α → α) :
    aupdate ((k, v) :: rest) n f =
      (if k = n then (k, f v) else (k, v)) :: aupdate rest n f := by
  simp only [aupdate, List.map_cons]

theorem alookup_aupdate {α : Type} (d : List (String × α)) (n : String)
    (f : α → α) (m : String) :
    alookup (aupdate d n f) m =
      if n = m then (alookup d m).map f else alookup d m := by
  induction d with
  | nil =>
      simp only [aupdate, List.map_nil, alookup]
      split <;> rfl
  | cons p rest ih =>
      obtain ⟨k, v⟩ := p
      rw [aupdate_cons]
      by_cases hkn : k = n
      · rw [if_pos hkn]
        subst hkn
        by_cases hkm : k = m
        · subst hkm
          simp [alookup]
        · simp [alookup, hkm, ih]
      · rw [if_neg hkn]
        by_cases hkm : k = m
        · subst hkm
          have hnm : ¬n = k := fun h => hkn h.symm
          simp [alookup, hnm]
        · simp [alookup, hkm, ih]

theorem aupdate_id {α : Type} (d : List (String × α)) (n : String) (f : α → α)
    (h : ∀ p ∈ d, p.1 = n → f p.2 = p.2) : aupdate d n f = d := by
  induction d with
  | nil => rfl
  | cons p rest ih =>
      obtain ⟨k, v⟩ := p
      by_cases hk : k = n
      · have hv : f v = v := h (k, v) (by simp) hk
        simp [aupdate, hk, hv]
        exact ih (fun q hq hq1 => h q (by simp [hq]) hq1)
      · simp [aupdate, hk]
        exact ih (fun q hq hq1 => h q (by simp [hq]) hq1)

theorem mem_aupdate {α : Type} {d : List (String × α)} {n : String}
    {f : α → α} {p : String × α} (h : p ∈ aupdate d n f) :
    ∃ q ∈ d, p = if q.1 = n then (q.1, f q.2) else q := by
  unfold aupdate at h
  obtain ⟨q, hq, he⟩ := List.mem_map.mp h
  exact ⟨q, hq, he.symm⟩

theorem alookup_mem {α : Type} {d : List (String × α)} {m : String} {v : α}
    (h : alookup d m = some v) : (m, v) ∈ d := by
  induction d with
  | nil => simp [alookup] at h
  | cons p rest ih =>
      obtain ⟨k, w⟩ := p
      by_cases hk : k = m
      · subst hk
        simp [alookup] at h
        simp [h]
      · simp [alookup, hk] at h
        simp [ih h]

theorem mem_alookup {α : Type} {d : List (String × α)} {m : String} {v : α}
    (hnd : (d.map Prod.fst).Nodup) (h : (m, v) ∈ d) : alookup d m = some v := by
  induction d with
  | nil => simp at h
  | cons p rest ih =>
      obtain ⟨k, w⟩ := p
      rw [List.map_cons] at hnd
      have hnd1 := (List.nodup_cons.mp hnd).1
      have hnd2 := (List.nodup_cons.mp hnd).2
      rcases List.mem_cons.mp h with he | hmem
      · have h1 : m = k := congrArg Prod.fst he
        have h2 : v = w := congrArg Prod.snd he
        subst h1
        subst h2
        simp [alookup]
      · have hk : ¬(k = m) := by
          intro hkm
          subst hkm
          exact hnd1 (List.mem_map.mpr ⟨(k, v), hmem, rfl⟩)
        rw [show alookup ((k, w) :: rest) m = alookup rest m from by simp [alookup, hk]]
        exact ih hnd2 hmem

theorem alookup_isSome_iff {α : Type} (d : List (String × α)) (m : String) :
    (alookup d m).isSome = true ↔ m ∈ d.map Prod.fst := by
  induction d with
  | nil => simp [alookup]
  | cons p rest ih =>
      obtain ⟨k, v⟩ := p
      rw [List.map_cons]
      by_cases hk : k = m
      · subst hk
        simp [alookup]
      · rw [show alookup ((k, v) :: rest) m = alookup rest m from by simp [alookup, hk]]
        rw [ih]
        constructor
        · intro hmem
          exact List.mem_cons_of_mem _ hmem
        · intro hmem
          rcases List.mem_cons.mp hmem with he | hmem2
          · exact absurd he.symm hk
          · exact hmem2

theorem mem_adjInsert_self (s : List String) (x : String) : x ∈ adjInsert s x := by
  unfold adjInsert
  split
  · assumption
  · simp

theorem mem_adjInsert_of_mem {s : List String} {y : String} (x : String)
    (h : y ∈ s) : y ∈ adjInsert s x := by
  unfold adjInsert
  split
  · exact h
  · simp [h]

theorem adjInsert_eq_self {s : List String} {x : String} (h : x ∈ s) :
    adjInsert s x = s := by
  simp [adjInsert, h]

/-- The adjacency-insertion step of `connect_locations`. -/
theorem connect_locations_def (gs : GameState) (a b : String)
    (ha : (alookup gs.locations a).isSome = true)
    (hb : (alookup gs.locations b).isSome = true) :
    (gs.connect_locations a b).locations =
      aupdate
        (aupdate gs.locations a
          (fun l => { l with adjacent_locations := adjInsert l.adjacent_locations b }))
        b
        (fun l => { l with adjacent_locations := adjInsert l.adjacent_locations a }) := by
  unfold GameState.connect_locations
  rw [if_pos ⟨ha, hb⟩]

theorem connect_locations_no_op (gs : GameState) (a b : String)
    (h : ¬((alookup gs.locations a).isSome = true ∧
           (alookup gs.locations b).isSome = true)) :
    gs.connect_locations a b = gs := by
  unfold GameState.connect_locations
  rw [if_neg h]

theorem alookup_aupdate_self {α : Type} (d : List (String × α)) (n : String)
    (f : α → α) : alookup (aupdate d n f) n = (alookup d n).map f := by
  rw [alookup_aupdate]
  simp

theorem alookup_aupdate_isSome {α : Type} (d : List (String × α)) (n : String)
    (f : α → α) (m : String) :
    (alookup (aupdate d n f) m).isSome = (alookup d m).isSome := by
  rw [alookup_aupdate]
  split
  · cases alookup d m <;> rfl
  · rfl

/-- `connect_locations` touches only the `locations` field. -/
theorem connect_locations_state (gs : GameState) (a b : String) :
    gs.connect_locations a b =
      { gs with locations := (gs.connect_locations a b).locations } := by
  unfold GameState.connect_locations
  split
  · rfl
  · rfl

/-- After `connect_locations a b` every entry keyed `a` lists `b` as
adjacent, and vice versa. -/
theorem connect_locations_mem_adj (gs : GameState) (a b : String)
    (ha : (alookup gs.locations a).isSome = true)
    (hb : (alookup gs.locations b).isSome = true) :
    (∀ p ∈ (gs.connect_locations a b).locations,
       p.1 = a → b ∈ p.2.adjacent_locations) ∧
    (∀ p ∈ (gs.connect_locations a b).locations,
       p.1 = b → a ∈ p.2.adjacent_locations) := by
  rw [connect_locations_def gs a b ha hb]
  constructor
  · intro p hp hpa
    obtain ⟨q, hq, hpq⟩ := mem_aupdate hp
    by_cases hqb : q.1 = b
    · rw [if_pos hqb] at hpq
      subst hpq
      simp at hpa
      obtain ⟨r, hr, hqr⟩ := mem_aupdate hq
      by_cases hra : r.1 = a
      · rw [if_pos hra] at hqr
        subst hqr
        simp
        exact mem_adjInsert_of_mem a (mem_adjInsert_self _ b)
      · rw [if_neg hra] at hqr
        subst hqr
        exact absurd hpa hra
    · rw [if_neg hqb] at hpq
      subst hpq
      obtain ⟨r, hr, hqr⟩ := mem_aupdate hq
      by_cases hra : r.1 = a
      · rw [if_pos hra] at hqr
        subst hqr
        simp
        exact mem_adjInsert_self _ b
      · rw [if_neg hra] at hqr
        subst hqr
        exact absurd hpa hra
  · intro p hp hpb
    obtain ⟨q, hq, hpq⟩ := mem_aupdate hp
    by_cases hqb : q.1 = b
    · rw [if_pos hqb] at hpq
      subst hpq
      simp
      exact mem_adjInsert_self _ a
    · rw [if_neg hqb] at hpq
      subst hpq
      exact absurd hpb hqb

/-- Claim C7: with both names registered, `connect_locations` makes the
adjacency symmetric; the call is idempotent, also with swapped arguments;
with an unknown name it is a silent no-op. -/
theorem connect_locations_spec (gs : GameState) (a b : String) :
    ((alookup gs.locations a).isSome = true → (alookup gs.locations b).isSome = true →
       (∃ la, alookup (gs.connect_locations a b).locations a = some la ∧
          b ∈ la.adjacent_locations) ∧
       (∃ lb, alookup (gs.connect_locations a b).locations b = some lb ∧
          a ∈ lb.adjacent_locations)) ∧
    ((gs.connect_locations a b).connect_locations a b = gs.connect_locations a b) ∧
    ((gs.connect_locations a b).connect_locations b a = gs.connect_locations a b) ∧
    (¬((alookup gs.locations a).isSome = true ∧ (alookup gs.locations b).isSome = true) →
       gs.connect_locations a b = gs) := by
  by_cases hcond : (alookup gs.locations a).isSome = true ∧
      (alookup gs.locations b).isSome = true
  · obtain ⟨ha, hb⟩ := hcond
    have hdef := connect_locations_def gs a b ha hb
    have hmemA := (connect_locations_mem_adj gs a b ha hb).1
    have hmemB := (connect_locations_mem_adj gs a b ha hb).2
    have ha1 : (alookup (gs.connect_locations a b).locations a).isSome = true := by
      rw [hdef, alookup_aupdate_isSome, alookup_aupdate_isSome]
      exact ha
    have hb1 : (alookup (gs.connect_locations a b).locations b).isSome = true := by
      rw [hdef, alookup_aupdate_isSome, alookup_aupdate_isSome]
      exact hb
    have hupdA : aupdate (gs.connect_locations a b).locations a
        (fun l => { l with adjacent_locations := adjInsert l.adjacent_locations b }) =
        (gs.connect_locations a b).locations := by
      refine aupdate_id _ _ _ (fun p hp hpa => ?_)
      rw [adjInsert_eq_self (hmemA p hp hpa)]
    have hupdB : aupdate (gs.connect_locations a b).locations b
        (fun l => { l with adjacent_locations := adjInsert l.adjacent_locations a }) =
        (gs.connect_locations a b).locations := by
      refine aupdate_id _ _ _ (fun p hp hpb => ?_)
      rw [adjInsert_eq_self (hmemB p hp hpb)]
    refine ⟨fun _ _ => ?_, ?_, ?_, fun hno => absurd ⟨ha, hb⟩ hno⟩
    · constructor
      · obtain ⟨va, hva⟩ := Option.isSome_iff_exists.mp ha
        rw [hdef]
        by_cases hba : b = a
        · subst hba
          rw [alookup_aupdate_self, alookup_aupdate_self, hva]
          exact ⟨_, rfl, mem_adjInsert_of_mem _ (mem_adjInsert_self _ _)⟩
        · rw [alookup_aupdate, if_neg hba, alookup_aupdate_self, hva]
          exact ⟨_, rfl, mem_adjInsert_self _ _⟩
      · obtain ⟨vb, hvb⟩ := Option.isSome_iff_exists.mp hb
        rw [hdef]
        by_cases hab : a = b
        · subst hab
          rw [alookup_aupdate_self, alookup_aupdate_self, hvb]
          exact ⟨_, rfl, mem_adjInsert_self _ _⟩
        · rw [alookup_aupdate_self, alookup_aupdate, if_neg hab, hvb]
          exact ⟨_, rfl, mem_adjInsert_self _ _⟩
    · rw [connect_locations_state (gs.connect_locations a b) a b]
      have hloc : ((gs.connect_locations a b).connect_locations a b).locations =
          (gs.connect_locations a b).locations := by
        rw [connect_locations_def (gs.connect_locations a b) a b ha1 hb1]
        rw [hupdA, hupdB]
      rw [hloc]
    · rw [connect_locations_state (gs.connect_locations a b) b a]
      have hloc : ((gs.connect_locations a b).connect_locations b a).locations =
          (gs.connect_locations a b).locations := by
        rw [connect_locations_def (gs.connect_locations a b) b a hb1 ha1]
        rw [hupdB, hupdA]
      rw [hloc]
  · have hno : gs.connect_locations a b = gs := connect_locations_no_op gs a b hcond
    have hno2 : gs.connect_locations b a = gs :=
      connect_locations_no_op gs b a (fun h => hcond ⟨h.2, h.1⟩)
    refine ⟨fun ha hb => absurd ⟨ha, hb⟩ hcond, ?_, ?_, fun _ => hno⟩
    · rw [hno]
      exact hno
    · rw [hno]
      exact hno2

/-- Witness for C7: connecting two registered locations of a concrete state,
and a no-op on an unregistered name. -/
theorem connect_locations_spec_witness :
    ((alookup gsW.locations "B").isSome = true ∧
     (alookup gsW.locations "C").isSome = true ∧
     ((∃ la, alookup (gsW.connect_locations "B" "C").locations "B" = some la ∧
        "C" ∈ la.adjacent_locations) ∧
      (∃ lb, alookup (gsW.connect_locations "B" "C").locations "C" = some lb ∧
        "B" ∈ lb.adjacent_locations))) ∧
    (¬((alookup gsW.locations "B").isSome = true ∧
       (alookup gsW.locations "Z").isSome = true) ∧
     gsW.connect_locations "B" "Z" = gsW) :=
  ⟨⟨by decide, by decide,
     (connect_locations_spec gsW "B" "C").1 (by decide) (by decide)⟩,
   ⟨by decide, (connect_locations_spec gsW "B" "Z").2.2.2 (by decide)⟩⟩

/-- Claim C2: with a three-bot rotation starting at index 0, three
`next_turn` calls return the pointer to the first bot and increment the turn
counter exactly once — and not on either of the first two calls. -/
theorem turn_rotation_spec (gs : GameState) (a b c : String)
    (ho : gs.turn_order = [a, b, c]) (hi : gs.current_turn_index = 0) :
    gs.next_turn.next_turn.next_turn.current_turn_index = 0 ∧
    gs.next_turn.next_turn.next_turn.turn = gs.turn + 1 ∧
    gs.next_turn.next_turn.next_turn.get_current_player = some a ∧
    gs.next_turn.turn = gs.turn ∧
    gs.next_turn.next_turn.turn = gs.turn := by
  have h1 : gs.next_turn = { gs with current_turn_index := 1 } := by
    unfold GameState.next_turn
    rw [ho, hi]
    simp
  have h2 : gs.next_turn.next_turn = { gs with current_turn_index := 2 } := by
    rw [h1]
    unfold GameState.next_turn
    simp [ho]
  have h3 : gs.next_turn.next_turn.next_turn =
      { gs with current_turn_index := 0, turn := gs.turn + 1 } := by
    rw [h2]
    unfold GameState.next_turn
    simp [ho]
  rw [h3, h2, h1]
  refine ⟨rfl, rfl, ?_, rfl, rfl⟩
  unfold GameState.get_current_player
  simp [ho]

/-- Witness for C2 at a concrete state with rotation `["A", "B", "C"]`. -/
theorem turn_rotation_spec_witness :
    (gsT.turn_order = ["A", "B", "C"] ∧ gsT.current_turn_index = 0) ∧
    (gsT.next_turn.next_turn.next_turn.current_turn_index = 0 ∧
     gsT.next_turn.next_turn.next_turn.turn = gsT.turn + 1 ∧
     gsT.next_turn.next_turn.next_turn.get_current_player = some "A" ∧
     gsT.next_turn.turn = gsT.turn ∧
     gsT.next_turn.next_turn.turn = gsT.turn) :=
  ⟨⟨by decide, by decide⟩, turn_rotation_spec gsT "A" "B" "C" (by decide) (by decide)⟩

/-- The pointer stays strictly below the rotation length in every reachable
state with a non-empty rotation. -/
theorem reachable_index_lt (gs : GameState) (h : Reachable gs) :
    gs.turn_order ≠ [] → gs.current_turn_index < gs.turn_order.length := by
  induction h with
  | empty =>
      intro hne
      exact absurd rfl hne
  | set_turn_order gs' bo hr ih =>
      intro hne
      exact List.length_pos.mpr hne
  | next_turn gs' hr ih =>
      intro hne
      by_cases hemp : gs'.turn_order.isEmpty
      · rw [show gs'.next_turn = gs' from by unfold GameState.next_turn ; rw [if_pos hemp]] at hne ⊢
        exact ih hne
      · by_cases hge : gs'.current_turn_index + 1 ≥ gs'.turn_order.length
        · rw [show gs'.next_turn =
              { gs' with current_turn_index := 0, turn := gs'.turn + 1 } from by
            unfold GameState.next_turn ; rw [if_neg hemp, if_pos hge]]
          show 0 < gs'.turn_order.length
          exact List.length_pos.mpr (fun he => hemp (by rw [he] ; rfl))
        · rw [show gs'.next_turn =
              { gs' with current_turn_index := gs'.current_turn_index + 1 } from by
            unfold GameState.next_turn ; rw [if_neg hemp, if_neg hge]]
          show gs'.current_turn_index + 1 < gs'.turn_order.length
          omega
  | reset_turn_order gs' hr ih =>
      intro hne
      exact List.length_pos.mpr hne

/-- Claim C10: in every state reachable through the turn-sequencing
operations, a non-empty rotation keeps the pointer in range (it is a `Nat`,
so `0 ≤` holds by construction), `get_current_player` returns a member of
the rotation, and it returns `none` exactly on the empty rotation. -/
theorem turn_pointer_invariant (gs : GameState) (h : Reachable gs) :
    (gs.turn_order ≠ [] →
       gs.current_turn_index < gs.turn_order.length ∧
       ∃ p, gs.get_current_player = some p ∧ p ∈ gs.turn_order) ∧
    (gs.turn_order = [] → gs.get_current_player = none) := by
  constructor
  · intro hne
    have hlt := reachable_index_lt gs h hne
    refine ⟨hlt, ?_⟩
    unfold GameState.get_current_player
    rw [if_neg (by simp [List.isEmpty_iff] ; exact hne)]
    refine ⟨gs.turn_order.get ⟨gs.current_turn_index, hlt⟩, ?_, List.get_mem _ _ hlt⟩
    exact List.get?_eq_get hlt
  · intro hemp
    unfold GameState.get_current_player
    rw [if_pos (by simp [List.isEmpty_iff, hemp])]

/-- Witness for C10 at a concrete reachable state. -/
theorem turn_pointer_invariant_witness :
    Reachable ((GameState.empty.set_turn_order ["A", "B"]).next_turn) ∧
    ((((GameState.empty.set_turn_order ["A", "B"]).next_turn).turn_order ≠ [] →
       (((GameState.empty.set_turn_order ["A", "B"]).next_turn).current_turn_index <
          (((GameState.empty.set_turn_order ["A", "B"]).next_turn).turn_order).length ∧
        ∃ p, (((GameState.empty.set_turn_order ["A", "B"]).next_turn).get_current_player) = some p ∧
          p ∈ (((GameState.empty.set_turn_order ["A", "B"]).next_turn).turn_order))) ∧
     ((((GameState.empty.set_turn_order ["A", "B"]).next_turn).turn_order = [] →
       (((GameState.empty.set_turn_order ["A", "B"]).next_turn).get_current_player) = none))) :=
  ⟨Reachable.next_turn _ (Reachable.set_turn_order _ _ Reachable.empty),
   turn_pointer_invariant _
     (Reachable.next_turn _ (Reachable.set_turn_order _ _ Reachable.empty))⟩

/-! Helper lemmas for the legal-move generator. -/

/-- Refinement: the source's per-location loop produces exactly one DEFEND
followed by one order per adjacent location, given by the spec's
per-neighbor rule. -/
theorem gofl_eq (gs : GameState) (bot : String) (l : Location) :
    LegalMoveGenerator.get_orders_for_location gs bot l =
      Order.mk OrderType.defend l none (some bot) ::
        (gs.get_adjacent_locations l).map (specOrderForNeighbor bot l) := by
  unfold LegalMoveGenerator.get_orders_for_location
  congr 1
  induction gs.get_adjacent_locations l with
  | nil => rfl
  | cons adj rest ih =>
      rw [List.flatMap_cons, List.map_cons, ih]
      by_cases ho : adj.owner = some bot
      · simp [specOrderForNeighbor, ho]
      · simp [specOrderForNeighbor, ho]

theorem mem_glo_iff (gs : GameState) (bot : String) (e : String × List Order) :
    e ∈ LegalMoveGenerator.get_legal_orders gs bot ↔
      ∃ l, l ∈ gs.get_bot_locations bot ∧ l.has_units = true ∧
        e = (l.name, LegalMoveGenerator.get_orders_for_location gs bot l) := by
  unfold LegalMoveGenerator.get_legal_orders
  rw [List.mem_filterMap]
  constructor
  · rintro ⟨l, hl, he⟩
    by_cases hu : l.has_units = true
    · rw [if_pos hu] at he
      have he2 : some (l.name, LegalMoveGenerator.get_orders_for_location gs bot l) =
          some e := he
      exact ⟨l, hl, hu, (Option.some.inj he2).symm⟩
    · rw [if_neg hu] at he
      exact absurd he (by simp)
  · rintro ⟨l, hl, hu, he⟩
    refine ⟨l, hl, ?_⟩
    rw [if_pos hu]
    show some (l.name, LegalMoveGenerator.get_orders_for_location gs bot l) = some e
    rw [he]

theorem mem_bot_locations_iff (gs : GameState) (bot : String) (l : Location) :
    l ∈ gs.get_bot_locations bot ↔
      l ∈ gs.locations.map Prod.snd ∧ l.owner = some bot := by
  unfold GameState.get_bot_locations
  rw [List.mem_filter]
  simp

theorem value_alookup (gs : GameState) (hwf : gs.wf) (l : Location) (m : String) :
    (l ∈ gs.locations.map Prod.snd ∧ l.name = m) ↔
      alookup gs.locations m = some l := by
  obtain ⟨hnd, hname, _⟩ := hwf
  constructor
  · rintro ⟨hmem, hn⟩
    obtain ⟨p, hp, hps⟩ := List.mem_map.mp hmem
    have h1 : p.1 = m := by rw [← hname p hp, hps, hn]
    have hpm : (m, l) ∈ gs.locations := by
      have h2 : p = (m, l) := Prod.ext h1 hps
      rw [← h2]
      exact hp
    exact mem_alookup hnd hpm
  · intro ha
    have hmem := alookup_mem ha
    exact ⟨List.mem_map.mpr ⟨(m, l), hmem, rfl⟩, hname (m, l) hmem⟩

theorem bot_locations_names_nodup (gs : GameState) (bot : String) (hwf : gs.wf) :
    ((gs.get_bot_locations bot).map Location.name).Nodup := by
  have hval : (gs.locations.map Prod.snd).map Location.name =
      gs.locations.map Prod.fst := by
    rw [List.map_map]
    exact List.map_congr_left (fun p hp => hwf.2.1 p hp)
  have hsub : List.Sublist ((gs.get_bot_locations bot).map Location.name)
      ((gs.locations.map Prod.snd).map Location.name) := by
    unfold GameState.get_bot_locations
    exact (List.filter_sublist _).map _
  rw [hval] at hsub
  exact hwf.1.sublist hsub

theorem guard_filterMap_sublist {α β : Type} (f : α → Option β) (g : α → β)
    (ls : List α) (hf : ∀ a, f a = none ∨ f a = some (g a)) :
    List.Sublist (ls.filterMap f) (ls.map g) := by
  induction ls with
  | nil => simp
  | cons a rest ih =>
      rw [List.filterMap_cons, List.map_cons]
      rcases hf a with h | h
      · rw [h]
        exact ih.cons _
      · rw [h]
        exact ih.cons₂ _

theorem glo_keys_nodup (gs : GameState) (bot : String) (hwf : gs.wf) :
    ((LegalMoveGenerator.get_legal_orders gs bot).map Prod.fst).Nodup := by
  unfold LegalMoveGenerator.get_legal_orders
  rw [List.map_filterMap]
  refine List.Nodup.sublist
    (guard_filterMap_sublist _ Location.name _ (fun l => ?_))
    (bot_locations_names_nodup gs bot hwf)
  by_cases hu : l.has_units = true
  · right
    rw [if_pos hu]
    rfl
  · left
    rw [if_neg hu]
    rfl

theorem alookup_glo (gs : GameState) (bot : String) (hwf : gs.wf) (m : String)
    (orders : List Order) :
    alookup (LegalMoveGenerator.get_legal_orders gs bot) m = some orders ↔
      ∃ l, alookup gs.locations m = some l ∧ l.owner = some bot ∧
        l.has_units = true ∧
        orders = LegalMoveGenerator.get_orders_for_location gs bot l := by
  constructor
  · intro h
    obtain ⟨l, hl, hu, he⟩ := (mem_glo_iff gs bot (m, orders)).mp (alookup_mem h)
    have hm : m = l.name := congrArg Prod.fst he
    have horders : orders = LegalMoveGenerator.get_orders_for_location gs bot l :=
      congrArg Prod.snd he
    obtain ⟨hval, ho⟩ := (mem_bot_locations_iff gs bot l).mp hl
    refine ⟨l, ?_, ho, hu, horders⟩
    exact (value_alookup gs hwf l m).mp ⟨hval, hm.symm⟩
  · rintro ⟨l, ha, ho, hu, rfl⟩
    have hval := (value_alookup gs hwf l m).mpr ha
    have hbl : l ∈ gs.get_bot_locations bot :=
      (mem_bot_locations_iff gs bot l).mpr ⟨hval.1, ho⟩
    have hmem : (l.name, LegalMoveGenerator.get_orders_for_location gs bot l) ∈
        LegalMoveGenerator.get_legal_orders gs bot :=
      (mem_glo_iff gs bot _).mpr ⟨l, hbl, hu, rfl⟩
    rw [← hval.2]
    exact mem_alookup (glo_keys_nodup gs bot hwf) hmem

theorem adjacent_alookup_name (gs : GameState) (hwf : gs.wf) {n : String}
    {nl : Location} (h : alookup gs.locations n = some nl) : nl.name = n :=
  hwf.2.1 (n, nl) (alookup_mem h)

theorem mem_get_adjacent_iff (gs : GameState) (hwf : gs.wf) (l nl : Location) :
    nl ∈ gs.get_adjacent_locations l ↔
      (nl.name ∈ l.adjacent_locations ∧ alookup gs.locations nl.name = some nl) := by
  unfold GameState.get_adjacent_locations
  rw [List.mem_filterMap]
  constructor
  · rintro ⟨n, hn, ha⟩
    have he := adjacent_alookup_name gs hwf ha
    rw [he]
    exact ⟨hn, ha⟩
  · rintro ⟨hn, ha⟩
    exact ⟨nl.name, hn, ha⟩

theorem get_adjacent_nodup (gs : GameState) (hwf : gs.wf) (l : Location)
    (hl : l ∈ gs.locations.map Prod.snd) :
    (gs.get_adjacent_locations l).Nodup := by
  unfold GameState.get_adjacent_locations
  have hadj : l.adjacent_locations.Nodup := by
    obtain ⟨p, hp, hps⟩ := List.mem_map.mp hl
    have h2 := hwf.2.2 p hp
    rwa [hps] at h2
  refine List.Nodup.filterMap ?_ hadj
  intro n n2 nl h1 h2
  have e1 : alookup gs.locations n = some nl := h1
  have e2 : alookup gs.locations n2 = some nl := h2
  rw [← adjacent_alookup_name gs hwf e1, ← adjacent_alookup_name gs hwf e2]

/-- Claim C1: the legal-order mapping's domain is exactly the bot's
unit-holding locations, and each entry is one DEFEND (first, and the only
DEFEND) followed by exactly one order per registered neighbor — MARCH when
the neighbor's owner differs from the bot, SUPPORT when it matches. -/
theorem legal_orders_complete (gs : GameState) (bot : String) (hwf : gs.wf) :
    (∀ name,
       (alookup (LegalMoveGenerator.get_legal_orders gs bot) name).isSome = true ↔
         ∃ l, alookup gs.locations name = some l ∧ l.owner = some bot ∧
           l.has_units = true) ∧
    (∀ name orders,
       alookup (LegalMoveGenerator.get_legal_orders gs bot) name = some orders →
         ∃ l, alookup gs.locations name = some l ∧ l.owner = some bot ∧
           l.has_units = true ∧
           orders = Order.mk OrderType.defend l none (some bot) ::
             (gs.get_adjacent_locations l).map (specOrderForNeighbor bot l) ∧
           (∀ o ∈ (gs.get_adjacent_locations l).map (specOrderForNeighbor bot l),
              o.order_type ≠ OrderType.defend) ∧
           (gs.get_adjacent_locations l).Nodup ∧
           (∀ nl, nl ∈ gs.get_adjacent_locations l ↔
              (nl.name ∈ l.adjacent_locations ∧
                alookup gs.locations nl.name = some nl))) := by
  constructor
  · intro name
    rw [Option.isSome_iff_exists]
    constructor
    · rintro ⟨orders, horders⟩
      obtain ⟨l, ha, ho, hu, _⟩ := (alookup_glo gs bot hwf name orders).mp horders
      exact ⟨l, ha, ho, hu⟩
    · rintro ⟨l, ha, ho, hu⟩
      exact ⟨_, (alookup_glo gs bot hwf name _).mpr ⟨l, ha, ho, hu, rfl⟩⟩
  · intro name orders horders
    obtain ⟨l, ha, ho, hu, he⟩ := (alookup_glo gs bot hwf name orders).mp horders
    refine ⟨l, ha, ho, hu, ?_, ?_, ?_, fun nl => mem_get_adjacent_iff gs hwf l nl⟩
    · rw [he, gofl_eq]
    · intro o hob
      obtain ⟨adj, _, hadj⟩ := List.mem_map.mp hob
      rw [← hadj]
      unfold specOrderForNeighbor
      split
      · simp
      · simp
    · refine get_adjacent_nodup gs hwf l ?_
      exact ((value_alookup gs hwf l name).mpr ha).1

/-- Witness for C1 at a concrete three-location state: the domain test on an
occupied and an empty owned location, and the full per-entry shape at the
occupied one. -/
theorem legal_orders_complete_witness :
    gsW.wf ∧
    ((alookup (LegalMoveGenerator.get_legal_orders gsW "Stark") "A").isSome = true ↔
       ∃ l, alookup gsW.locations "A" = some l ∧ l.owner = some "Stark" ∧
         l.has_units = true) ∧
    ((alookup (LegalMoveGenerator.get_legal_orders gsW "Stark") "B").isSome = true ↔
       ∃ l, alookup gsW.locations "B" = some l ∧ l.owner = some "Stark" ∧
         l.has_units = true) ∧
    (∃ l, alookup gsW.locations "A" = some l ∧ l.owner = some "Stark" ∧
       l.has_units = true ∧
       [Order.mk OrderType.defend locW none (some "Stark"),
        Order.mk OrderType.support locW (some locW0) (some "Stark"),
        Order.mk OrderType.march locW (some locW2) (some "Stark")] =
         Order.mk OrderType.defend l none (some "Stark") ::
           (gsW.get_adjacent_locations l).map (specOrderForNeighbor "Stark" l) ∧
       (∀ o ∈ (gsW.get_adjacent_locations l).map (specOrderForNeighbor "Stark" l),
          o.order_type ≠ OrderType.defend) ∧
       (gsW.get_adjacent_locations l).Nodup ∧
       (∀ nl, nl ∈ gsW.get_adjacent_locations l ↔
          (nl.name ∈ l.adjacent_locations ∧
            alookup gsW.locations nl.name = some nl))) :=
  ⟨by decide,
   (legal_orders_complete gsW "Stark" (by decide)).1 "A",
   (legal_orders_complete gsW "Stark" (by decide)).1 "B",
   (legal_orders_complete gsW "Stark" (by decide)).2 "A"
     [Order.mk OrderType.defend locW none (some "Stark"),
      Order.mk OrderType.support locW (some locW0) (some "Stark"),
      Order.mk OrderType.march locW (some locW2) (some "Stark")]
     (by decide)⟩

/-- Claim C9: legal-order generation and checking read only the locations
map — they are pure functions of it, so they mutate nothing — and they
total: an empty holding yields the empty mapping, a missing origin entry
yields `false`, and the membership semantics of `is_legal_order` holds for
every input. -/
theorem legal_orders_read_only (gs gs2 : GameState) (bot : String)
    (order : Order) (hloc : gs.locations = gs2.locations) :
    LegalMoveGenerator.get_legal_orders gs bot =
      LegalMoveGenerator.get_legal_orders gs2 bot ∧
    LegalMoveGenerator.is_legal_order gs bot order =
      LegalMoveGenerator.is_legal_order gs2 bot order ∧
    (gs.get_bot_locations bot = [] →
       LegalMoveGenerator.get_legal_orders gs bot = []) ∧
    (alookup (LegalMoveGenerator.get_legal_orders gs bot) order.location.name = none →
       LegalMoveGenerator.is_legal_order gs bot order = false) ∧
    (LegalMoveGenerator.is_legal_order gs bot order = true ↔
       ∃ orders,
         alookup (LegalMoveGenerator.get_legal_orders gs bot) order.location.name =
           some orders ∧ order ∈ orders) := by
  have hadj : ∀ l, gs.get_adjacent_locations l = gs2.get_adjacent_locations l := by
    intro l
    unfold GameState.get_adjacent_locations
    rw [hloc]
  have hgofl : ∀ l, LegalMoveGenerator.get_orders_for_location gs bot l =
      LegalMoveGenerator.get_orders_for_location gs2 bot l := by
    intro l
    unfold LegalMoveGenerator.get_orders_for_location
    rw [hadj l]
  have hbl : gs.get_bot_locations bot = gs2.get_bot_locations bot := by
    unfold GameState.get_bot_locations
    rw [hloc]
  have h1 : LegalMoveGenerator.get_legal_orders gs bot =
      LegalMoveGenerator.get_legal_orders gs2 bot := by
    unfold LegalMoveGenerator.get_legal_orders
    rw [hbl]
    congr 1
    funext location
    rw [hgofl location]
  refine ⟨h1, ?_, ?_, ?_, ?_⟩
  · unfold LegalMoveGenerator.is_legal_order
    rw [h1]
  · intro hempty
    unfold LegalMoveGenerator.get_legal_orders
    rw [hempty]
    rfl
  · intro hnone
    unfold LegalMoveGenerator.is_legal_order
    rw [hnone]
  · unfold LegalMoveGenerator.is_legal_order
    cases halo : alookup (LegalMoveGenerator.get_legal_orders gs bot)
        order.location.name with
    | none => simp
    | some location_orders =>
        simp [List.any_eq_true]

/-- Witness for C9: two concrete states sharing the same map but differing
in turn counter, pointer and history. -/
theorem legal_orders_read_only_witness :
    gsW.locations = gsW'.locations ∧
    (LegalMoveGenerator.get_legal_orders gsW "Stark" =
       LegalMoveGenerator.get_legal_orders gsW' "Stark" ∧
     LegalMoveGenerator.is_legal_order gsW "Stark"
         (Order.mk OrderType.defend locW none (some "Stark")) =
       LegalMoveGenerator.is_legal_order gsW' "Stark"
         (Order.mk OrderType.defend locW none (some "Stark")) ∧
     (gsW.get_bot_locations "Stark" = [] →
        LegalMoveGenerator.get_legal_orders gsW "Stark" = []) ∧
     (alookup (LegalMoveGenerator.get_legal_orders gsW "Stark")
         (Order.mk OrderType.defend locW none (some "Stark")).location.name = none →
        LegalMoveGenerator.is_legal_order gsW "Stark"
          (Order.mk OrderType.defend locW none (some "Stark")) = false) ∧
     (LegalMoveGenerator.is_legal_order gsW "Stark"
          (Order.mk OrderType.defend locW none (some "Stark")) = true ↔
        ∃ orders,
          alookup (LegalMoveGenerator.get_legal_orders gsW "Stark")
            (Order.mk OrderType.defend locW none (some "Stark")).location.name =
              some orders ∧
          Order.mk OrderType.defend locW none (some "Stark") ∈ orders)) :=
  ⟨rfl, legal_orders_read_only gsW gsW' "Stark"
    (Order.mk OrderType.defend locW none (some "Stark")) rfl⟩

end GotSim
